import Mathlib

/-!
Shallow embedding of the opencode-notifications plugin
(src/unnamed/part_001 = plugin entry, src/unnamed/part_002 = focus.ts,
src/src/notify.ts, src/src/types.ts which bundles types.ts and config.ts).

External shell commands are modelled syntactically by `Cmd`; each
constructor stands for one literal command line built in focus.ts.  The
outcome of executing a child process is an `ExecOutcome`, and a run of the
program is parametrised by an environment `Cmd → ExecOutcome` describing
what every probe would observe.  Detector methods additionally return the
ordered list of probes they actually issued, so that "this probe was never
consulted" is expressible as an equation on the log.
-/

/-- The shell command lines issued by focus.ts:
`which <bin>`, `xdotool getactivewindow`,
`tmux display-message -t <pane> -p "#\x7bsession_attached\x7d"` and
`tmux display-message -t <pane> -p "#\x7bwindow_active\x7d"`. -/
inductive Cmd where
  | which (bin : String)
  | xdotoolGetActiveWindow
  | tmuxSessionAttached (paneId : String)
  | tmuxWindowActive (paneId : String)
deriving DecidableEq

/-- Outcome of `execAsync` on a child process: either it resolves with the
captured stdout and stderr, or it rejects (non-zero exit status, timeout
after the fixed 5000 ms bound, execution error, or missing binary). -/
inductive ExecOutcome where
  | success (stdout stderr : String)
  | nonZeroExit
  | timeout
  | execError
  | missingBinary
deriving DecidableEq

/-- `runCommand` from focus.ts: resolve to the trimmed stdout, and collapse
every rejection of the child process to `none` (the "unavailable" /
no-signal sentinel; the TypeScript value is `null`).  Being a total Lean
function into `Option`, it propagates no failure to its caller. -/
def runCommand (o : ExecOutcome) : Option String :=
  match o with
  | ExecOutcome.success stdout _ => some stdout.trim
  | _ => none

/-- True on the four rejecting outcomes of `execAsync`. -/
def isExecFailure (o : ExecOutcome) : Bool :=
  match o with
  | ExecOutcome.success _ _ => false
  | _ => true

/-- One probe: run a command in the given environment, recording it in the
probe log. -/
def runCommandP (env : Cmd → ExecOutcome) (c : Cmd) : Option String × List Cmd :=
  (runCommand (env c), [c])

/-- `commandExists` from focus.ts: `which <cmd>` succeeded with non-empty
trimmed output. -/
def commandExists (env : Cmd → ExecOutcome) (cmd : String) : Bool × List Cmd :=
  let result := runCommandP env (Cmd.which cmd)
  (match result.1 with
   | some s => decide (s.length > 0)
   | none => false,
   result.2)

/-- The `FocusDetector` interface from types.ts.  `init` captures a
reference terminal identity (or `none` when detection is unsupported);
`isTerminalFocused` re-queries and compares.  Both also return the list of
probes they issued. -/
structure FocusDetector where
  name : String
  init : (Cmd → ExecOutcome) → Option String × List Cmd
  isTerminalFocused : String → (Cmd → ExecOutcome) → Bool × List Cmd

/-- `X11FocusDetector` from focus.ts: `init` requires `xdotool` to exist
and captures `xdotool getactivewindow`; `isTerminalFocused` re-probes the
active window and compares it to the captured identity with strict
equality (a `null` probe result never equals a string). -/
def X11FocusDetector : FocusDetector where
  name := "X11 (xdotool)"
  init := fun env =>
    let ex := commandExists env "xdotool"
    if ex.1 = false then (none, ex.2)
    else
      let r := runCommandP env Cmd.xdotoolGetActiveWindow
      (r.1, ex.2 ++ r.2)
  isTerminalFocused := fun terminalId env =>
    let currentWindow := runCommandP env Cmd.xdotoolGetActiveWindow
    (currentWindow.1 == some terminalId, currentWindow.2)

/-- `TmuxFocusDetector` from focus.ts: wraps an inner detector.  `init`
checks whether `tmux` exists and in either case delegates to the inner
detector's `init`.  `isTerminalFocused` is the three-stage chain: inner
focus, then `session_attached`, then `window_active`, short-circuiting to
`false` at the first failed stage. -/
def TmuxFocusDetector (paneId : String) (inner : FocusDetector) : FocusDetector where
  name := "Tmux"
  init := fun env =>
    let ex := commandExists env "tmux"
    if ex.1 = false then
      let r := inner.init env
      (r.1, ex.2 ++ r.2)
    else
      let r := inner.init env
      (r.1, ex.2 ++ r.2)
  isTerminalFocused := fun terminalId env =>
    let r := inner.isTerminalFocused terminalId env
    if r.1 = false then (false, r.2)
    else
      let sessionAttached := runCommandP env (Cmd.tmuxSessionAttached paneId)
      if sessionAttached.1 != some "1" then (false, r.2 ++ sessionAttached.2)
      else
        let windowActive := runCommandP env (Cmd.tmuxWindowActive paneId)
        (windowActive.1 == some "1", r.2 ++ sessionAttached.2 ++ windowActive.2)

/-- `AlwaysNotifyDetector` from focus.ts: `init` returns the dummy
identity `"unsupported"`, and `isTerminalFocused` is constantly `false`.
Neither consults any probe. -/
def AlwaysNotifyDetector : FocusDetector where
  name := "Fallback (always notify)"
  init := fun _ => (some "unsupported", [])
  isTerminalFocused := fun _ _ => (false, [])

/-- C4: for every command and every behaviour of the child process, the
command probe either resolves to the child's stdout with surrounding
whitespace trimmed (exactly on success) or collapses to the no-signal
sentinel (on non-zero exit, timeout, execution error, or missing binary);
`runCommand` is total, so no failure ever propagates to its caller. -/
theorem runCommand_total_spec (env : Cmd → ExecOutcome) (c : Cmd) :
    (∃ out err, env c = ExecOutcome.success out err ∧
        runCommand (env c) = some out.trim) ∨
    (isExecFailure (env c) = true ∧ runCommand (env c) = none) := by
  cases h : env c with
  | success out err => exact Or.inl ⟨out, err, rfl, rfl⟩
  | nonZeroExit => exact Or.inr ⟨rfl, rfl⟩
  | timeout => exact Or.inr ⟨rfl, rfl⟩
  | execError => exact Or.inr ⟨rfl, rfl⟩
  | missingBinary => exact Or.inr ⟨rfl, rfl⟩

/-- C3: the X11-style detector's `isTerminalFocused id` returns `true`
exactly when the re-probed active-window value is a successful probe
result equal to `id`; in particular any probe failure (`none`) yields
`false`. -/
theorem x11_isFocused_iff (env : Cmd → ExecOutcome) (id : String) :
    (X11FocusDetector.isTerminalFocused id env).1 = true ↔
      runCommand (env Cmd.xdotoolGetActiveWindow) = some id := by
  simp [X11FocusDetector, runCommandP]

/-- C7: the Always-Notify fallback's `init` always returns the same fixed
non-null placeholder identity `"unsupported"`, and its
`isTerminalFocused` returns `false` on every identity — including the one
produced by its own `init` — in every probe environment. -/
theorem alwaysNotify_spec :
    (∀ env : Cmd → ExecOutcome, (AlwaysNotifyDetector.init env).1 = some "unsupported") ∧
    (∀ (id : String) (env : Cmd → ExecOutcome),
      (AlwaysNotifyDetector.isTerminalFocused id env).1 = false) :=
  ⟨fun _ => rfl, fun _ _ => rfl⟩

/-- C1: characterization of the Tmux wrapper's `isTerminalFocused`, for an
arbitrary inner detector and arbitrary probe environment (so in
particular for every combination of inner result and multiplexer probe
outcomes, probe failures included).  First conjunct: the boolean result is
`true` exactly when the inner detector reports `true` and the
`session_attached` probe returns `"1"` and the `window_active` probe
returns `"1"`.  Second conjunct: when the inner detector reports `false`,
the whole call returns `false` with exactly the inner detector's probe
log — the two multiplexer probes are not consulted, so they need not
succeed. -/
theorem tmux_isFocused_characterization
    (inner : FocusDetector) (paneId terminalId : String) (env : Cmd → ExecOutcome) :
    (((TmuxFocusDetector paneId inner).isTerminalFocused terminalId env).1 =
      ((inner.isTerminalFocused terminalId env).1 &&
        (runCommand (env (Cmd.tmuxSessionAttached paneId)) == some "1") &&
        (runCommand (env (Cmd.tmuxWindowActive paneId)) == some "1"))) ∧
    ((inner.isTerminalFocused terminalId env).1 = false →
      (TmuxFocusDetector paneId inner).isTerminalFocused terminalId env =
        (false, (inner.isTerminalFocused terminalId env).2)) := by
  constructor
  · cases h : (inner.isTerminalFocused terminalId env).1 with
    | false => simp [TmuxFocusDetector, runCommandP, h]
    | true =>
      by_cases h2 : runCommand (env (Cmd.tmuxSessionAttached paneId)) = some "1"
      · simp [TmuxFocusDetector, runCommandP, h, h2]
      · simp [TmuxFocusDetector, runCommandP, h, h2]
  · intro h
    simp [TmuxFocusDetector, runCommandP, h]

/-- Witness for C1: with the Always-Notify fallback as inner detector
(which reports `false` with an empty probe log) and an all-failing probe
environment, the wrapped detector returns `false` with an empty log. -/
theorem tmux_isFocused_characterization_witness :
    ((AlwaysNotifyDetector.isTerminalFocused "t" (fun _ => ExecOutcome.execError)).1 = false) ∧
    ((TmuxFocusDetector "p" AlwaysNotifyDetector).isTerminalFocused "t"
        (fun _ => ExecOutcome.execError) =
      (false, (AlwaysNotifyDetector.isTerminalFocused "t" (fun _ => ExecOutcome.execError)).2)) :=
  ⟨rfl,
    (tmux_isFocused_characterization AlwaysNotifyDetector "p" "t"
      (fun _ => ExecOutcome.execError)).2 rfl⟩

/-- The environment variables read by `createFocusDetector` in focus.ts:
`XDG_SESSION_TYPE`, `DISPLAY` and `TMUX_PANE` (`none` = variable unset). -/
structure EnvSnapshot where
  sessionType : Option String
  display : Option String
  tmuxPane : Option String
deriving DecidableEq

/-- JavaScript truthiness of an environment variable (`string | undefined`):
falsy when unset or set to the empty string. -/
def envTruthy (v : Option String) : Bool :=
  match v with
  | some s => s != ""
  | none => false

/-- Shape of the detector object graph built by the factory. -/
inductive DetectorKind where
  | x11
  | alwaysNotify
  | tmuxWrapped (paneId : String) (inner : DetectorKind)
deriving DecidableEq

/-- `createFocusDetector` from focus.ts, as the shape of the object graph
it constructs: the base is X11 when `XDG_SESSION_TYPE === "x11"` or
`DISPLAY` is truthy, otherwise the Always-Notify fallback; the base is
wrapped in a Tmux detector carrying the pane id when `TMUX_PANE` is
truthy. -/
def createFocusDetector (e : EnvSnapshot) : DetectorKind :=
  let baseDetector : DetectorKind :=
    if e.sessionType == some "x11" || envTruthy e.display then DetectorKind.x11
    else DetectorKind.alwaysNotify
  match e.tmuxPane with
  | some pane => if pane != "" then DetectorKind.tmuxWrapped pane baseDetector else baseDetector
  | none => baseDetector

/-- C2 as stated, at one snapshot: reading "present" as "the variable is
set" (possibly to the empty string), the factory picks the X11 base iff
the session type is the X11 value or the display marker is present, and
wraps iff the multiplexer-pane marker is present. -/
def createFocusDetectorClaimAt (e : EnvSnapshot) : Prop :=
  createFocusDetector e =
    (let base : DetectorKind :=
      if e.sessionType = some "x11" ∨ e.display.isSome then DetectorKind.x11
      else DetectorKind.alwaysNotify
    match e.tmuxPane with
    | some pane => DetectorKind.tmuxWrapped pane base
    | none => base)

/-- Counterexample to C2 as stated: with `XDG_SESSION_TYPE="wayland"`,
`DISPLAY=""` and `TMUX_PANE=""` both markers are present but falsy, so the
code builds the unwrapped Always-Notify fallback while the claim demands
a Tmux-wrapped X11 detector. -/
theorem createFocusDetector_claim_cex :
    ¬ createFocusDetectorClaimAt ⟨some "wayland", some "", some ""⟩ := by
  unfold createFocusDetectorClaimAt
  decide

/-- C2 amended: "present" strengthened to "present with a non-empty
value" for both the display-endpoint and the multiplexer-pane markers.
The base is X11 iff the session-type marker equals `"x11"` or the display
marker is set non-empty, else the Always-Notify fallback; the result is
that base wrapped (outside) in a Tmux detector carrying the pane id iff
the multiplexer-pane marker is set non-empty, else the bare base. -/
theorem createFocusDetector_characterization (e : EnvSnapshot) :
    createFocusDetector e =
      (let base : DetectorKind :=
        if e.sessionType = some "x11" ∨ (e.display ≠ none ∧ e.display ≠ some "")
        then DetectorKind.x11
        else DetectorKind.alwaysNotify
      match e.tmuxPane with
      | some pane => if pane ≠ "" then DetectorKind.tmuxWrapped pane base else base
      | none => base) := by
  obtain ⟨st, d, tp⟩ := e
  have hbase :
      (if st == some "x11" || envTruthy d then DetectorKind.x11
       else DetectorKind.alwaysNotify) =
      (if st = some "x11" ∨ (d ≠ none ∧ d ≠ some "") then DetectorKind.x11
       else DetectorKind.alwaysNotify) := by
    cases d with
    | none => simp [envTruthy]
    | some s =>
      by_cases hs : s = ""
      · subst hs; simp [envTruthy]
      · simp [envTruthy, hs]
  cases tp with
  | none => simpa [createFocusDetector] using hbase
  | some pane =>
    by_cases hp : pane = ""
    · subst hp; simpa [createFocusDetector] using hbase
    · simpa [createFocusDetector, hp] using hbase

/-- State machine for `str.replace(/\s+/g, " ")` from notify.ts (`truncate`),
over the character list: each maximal whitespace run becomes one space.
The boolean records whether the previous character was whitespace.
`Char.isWhitespace` models the regex whitespace class. -/
def collapseWsAux : Bool → List Char → List Char
  | _, [] => []
  | prevWs, c :: cs =>
    if c.isWhitespace then
      if prevWs then collapseWsAux true cs
      else ' ' :: collapseWsAux true cs
    else c :: collapseWsAux false cs

/-- `str.replace(/\s+/g, " ")`. -/
def collapseWs (l : List Char) : List Char :=
  collapseWsAux false l

/-- Remove trailing whitespace. -/
def dropTrailWs (l : List Char) : List Char :=
  (l.reverse.dropWhile Char.isWhitespace).reverse

/-- `.trim()`: remove leading and trailing whitespace. -/
def trimWs (l : List Char) : List Char :=
  dropTrailWs (l.dropWhile Char.isWhitespace)

/-- JavaScript `l.slice(0, stop)`: a negative stop index counts from the
end, clamped at zero. -/
def jsSliceTo (l : List Char) (stop : Int) : List Char :=
  l.take (if stop < 0 then ((l.length : Int) + stop).toNat else stop.toNat)

/-- `truncate` from notify.ts: clean the string
(`.replace(/\s+/g, " ").trim()`), return it whole when its length is
within `maxLength`, else `cleaned.slice(0, maxLength - 1)` followed by the
ellipsis character.  The subtraction `maxLength - 1` is JavaScript number
arithmetic, hence the `Int`-valued slice index. -/
def truncate (str : String) (maxLength : Nat) : String :=
  let cleaned := trimWs (collapseWs str.data)
  if cleaned.length ≤ maxLength then String.mk cleaned
  else String.mk (jsSliceTo cleaned ((maxLength : Int) - 1) ++ ['…'])

/-- The four event types from types.ts. -/
inductive EventType where
  | complete
  | error
  | permission
  | question
deriving DecidableEq

/-- Notification content record from types.ts. -/
structure NotificationContent where
  title : String
  body : String
  icon : String
deriving DecidableEq

/-- `NOTIFICATION_DEFAULTS` from notify.ts. -/
def NOTIFICATION_DEFAULTS : EventType → NotificationContent
  | EventType.complete => ⟨"OpenCode Ready", "Task completed", "dialog-information"⟩
  | EventType.error => ⟨"OpenCode Error", "An error occurred", "dialog-error"⟩
  | EventType.permission => ⟨"OpenCode Permission", "Action requires approval", "dialog-password"⟩
  | EventType.question => ⟨"OpenCode Question", "Your input is needed", "dialog-question"⟩

/-- `EVENT_SOUNDS` from notify.ts. -/
def EVENT_SOUNDS : EventType → String
  | EventType.complete => "dialog-information"
  | EventType.error => "dialog-error"
  | EventType.permission => "dialog-warning"
  | EventType.question => "dialog-question"

/-- `getEventSound` from notify.ts. -/
def getEventSound (eventType : EventType) : String :=
  EVENT_SOUNDS eventType

/-- `EventContext` from notify.ts: optional descriptive fields. -/
structure EventContext where
  errorMessage : Option String
  permissionName : Option String
  permissionPatterns : Option (List String)
  questionText : Option String
  questionHeader : Option String
deriving DecidableEq

/-- JavaScript truthiness of an optional string field: falsy when absent
or the empty string. -/
def strTruthy (v : Option String) : Bool :=
  match v with
  | some s => s != ""
  | none => false

/-- `getNotificationContent` from notify.ts: the defaults for the event
type, with the body possibly rebuilt from the context (truthy fields
only); the record is assembled by spreading the defaults and overriding
only `body`. -/
def getNotificationContent (eventType : EventType) (context : Option EventContext) :
    NotificationContent :=
  let defaults := NOTIFICATION_DEFAULTS eventType
  match context with
  | none => defaults
  | some ctx =>
    let body :=
      match eventType with
      | EventType.error =>
        if strTruthy ctx.errorMessage then truncate (ctx.errorMessage.getD "") 100
        else defaults.body
      | EventType.permission =>
        if strTruthy ctx.permissionName then
          let pattern := ctx.permissionPatterns.bind List.head?
          if strTruthy pattern then
            ctx.permissionName.getD "" ++ ": " ++ truncate (pattern.getD "") 60
          else ctx.permissionName.getD "" ++ " requested"
        else defaults.body
      | EventType.question =>
        if strTruthy ctx.questionText then truncate (ctx.questionText.getD "") 100
        else if strTruthy ctx.questionHeader then truncate (ctx.questionHeader.getD "") 100
        else defaults.body
      | EventType.complete => defaults.body
    { defaults with body := body }

/-- C10: for every event type and every context (including none),
`getNotificationContent` keeps the default title and icon of that event
type; only the body can differ from the defaults. -/
theorem notificationContent_preserves_title_icon
    (t : EventType) (context : Option EventContext) :
    (getNotificationContent t context).title = (NOTIFICATION_DEFAULTS t).title ∧
    (getNotificationContent t context).icon = (NOTIFICATION_DEFAULTS t).icon := by
  cases context with
  | none => exact ⟨rfl, rfl⟩
  | some c => exact ⟨rfl, rfl⟩

/-- `EventsConfig` from types.ts. -/
structure EventsConfig where
  complete : Bool
  error : Bool
  permission : Bool
  question : Bool
deriving DecidableEq

/-- `SoundConfig` from types.ts. -/
structure SoundConfig where
  enabled : Bool
deriving DecidableEq

/-- `NotificationConfig` from types.ts. -/
structure NotificationConfig where
  events : EventsConfig
  sound : SoundConfig
deriving DecidableEq

/-- `isEventEnabled` from config.ts: `config.events[eventType]`. -/
def isEventEnabled (config : NotificationConfig) (eventType : EventType) : Bool :=
  match eventType with
  | EventType.complete => config.events.complete
  | EventType.error => config.events.error
  | EventType.permission => config.events.permission
  | EventType.question => config.events.question

/-- One invocation of the delivery collaborator: the arguments the gate
hands to `sendNotification`. -/
structure Delivery where
  title : String
  body : String
  icon : String
  playSound : Bool
  soundId : String
deriving DecidableEq

/-- The arguments `maybeNotify` passes to `sendNotification` for a given
event. -/
def mkDelivery (config : NotificationConfig) (eventType : EventType)
    (context : Option EventContext) : Delivery :=
  let c := getNotificationContent eventType context
  ⟨c.title, c.body, c.icon, config.sound.enabled, getEventSound eventType⟩

/-- `maybeNotify` from the plugin entry point: skip when the event type is
disabled; skip when a truthy terminal identity was captured and the
detector reports the terminal focused; otherwise hand the formatted
content to the delivery collaborator.  Returns the delivery invocation (if
any) and the probes issued; when `terminalId` is not truthy the detector
is never consulted, so the probe log is empty. -/
def maybeNotify (config : NotificationConfig) (detector : FocusDetector)
    (terminalId : Option String) (env : Cmd → ExecOutcome)
    (eventType : EventType) (context : Option EventContext) :
    Option Delivery × List Cmd :=
  if isEventEnabled config eventType = false then (none, [])
  else
    match terminalId with
    | some tid =>
      if tid != "" then
        let r := detector.isTerminalFocused tid env
        if r.1 then (none, r.2)
        else (some (mkDelivery config eventType context), r.2)
      else (some (mkDelivery config eventType context), [])
    | none => (some (mkDelivery config eventType context), [])

/-- The gate applied to a stream of qualifying events: the sequence of
delivery-collaborator invocations it produces. -/
def notifyAll (config : NotificationConfig) (detector : FocusDetector)
    (terminalId : Option String) (env : Cmd → ExecOutcome)
    (events : List (EventType × Option EventContext)) : List Delivery :=
  events.filterMap (fun e => (maybeNotify config detector terminalId env e.1 e.2).1)

/-- C5: when an event category is disabled in the configuration, the gate
performs zero delivery-collaborator invocations for it: a single event of
that category yields no delivery (and no probes), and any stream of events
of that category yields the empty delivery sequence — for every detector,
captured identity and probe environment. -/
theorem disabled_event_no_delivery (config : NotificationConfig) (t : EventType)
    (h : isEventEnabled config t = false) :
    (∀ (detector : FocusDetector) (terminalId : Option String) (env : Cmd → ExecOutcome)
        (context : Option EventContext),
      maybeNotify config detector terminalId env t context = (none, [])) ∧
    (∀ (detector : FocusDetector) (terminalId : Option String) (env : Cmd → ExecOutcome)
        (events : List (EventType × Option EventContext)),
      (∀ e ∈ events, e.1 = t) → notifyAll config detector terminalId env events = []) := by
  constructor
  · intro detector terminalId env context
    simp [maybeNotify, h]
  · intro detector terminalId env events
    induction events with
    | nil => intro _; rfl
    | cons e es ih =>
      intro hall
      have he : e.1 = t := hall e (List.mem_cons_self e es)
      have hme : (maybeNotify config detector terminalId env e.1 e.2).1 = none := by
        rw [he]; simp [maybeNotify, h]
      have hr := ih (fun x hx => hall x (List.mem_cons_of_mem e hx))
      simpa [notifyAll, List.filterMap_cons, hme] using hr

/-- Witness for C5: with `complete` disabled, a stream consisting of one
`complete` event produces no delivery. -/
theorem disabled_event_no_delivery_witness :
    (isEventEnabled ⟨⟨false, true, true, true⟩, ⟨true⟩⟩ EventType.complete = false) ∧
    (notifyAll ⟨⟨false, true, true, true⟩, ⟨true⟩⟩ AlwaysNotifyDetector none
        (fun _ => ExecOutcome.execError) [(EventType.complete, none)] = []) :=
  ⟨rfl,
    (disabled_event_no_delivery ⟨⟨false, true, true, true⟩, ⟨true⟩⟩ EventType.complete rfl).2
      AlwaysNotifyDetector none (fun _ => ExecOutcome.execError)
      [(EventType.complete, none)] (by simp)⟩

/-- C6: when `init` captured no identity (`none`), the gate treats the
terminal as not focused for every enabled event: it dispatches the
notification, with an empty probe log and a result that does not depend on
the detector (which is universally quantified and absent from the
right-hand side) — the detector's `isFocused` is never consulted. -/
theorem no_identity_always_notifies (config : NotificationConfig)
    (detector : FocusDetector) (env : Cmd → ExecOutcome)
    (t : EventType) (context : Option EventContext)
    (h : isEventEnabled config t = true) :
    maybeNotify config detector none env t context =
      (some (mkDelivery config t context), []) := by
  simp [maybeNotify, h]

/-- Witness for C6: with everything enabled and no captured identity, a
`complete` event is dispatched even though the detector is the X11 one and
every probe fails. -/
theorem no_identity_always_notifies_witness :
    (isEventEnabled ⟨⟨true, true, true, true⟩, ⟨true⟩⟩ EventType.complete = true) ∧
    (maybeNotify ⟨⟨true, true, true, true⟩, ⟨true⟩⟩ X11FocusDetector none
        (fun _ => ExecOutcome.execError) EventType.complete none =
      (some (mkDelivery ⟨⟨true, true, true, true⟩, ⟨true⟩⟩ EventType.complete none), [])) :=
  ⟨rfl,
    no_identity_always_notifies ⟨⟨true, true, true, true⟩, ⟨true⟩⟩ X11FocusDetector
      (fun _ => ExecOutcome.execError) EventType.complete none rfl⟩

/-- A parsed JSON value, as produced by `JSON.parse`. -/
inductive Json where
  | null
  | bool (b : Bool)
  | num (n : Int)
  | str (s : String)
  | arr (items : List Json)
  | obj (fields : List (String × Json))

/-- JavaScript property access `v[key]` on a parsed JSON value: `none`
(undefined) unless `v` is an object with that key. -/
def jget (j : Json) (key : String) : Option Json :=
  match j with
  | Json.obj fields => (fields.find? (fun f => f.1 == key)).map Prod.snd
  | _ => none

/-- The right side of `x ?? d` selects `d` when `x` is null or undefined;
`nullish` collapses a null result to `none` so that `getD` models `??`. -/
def nullish (v : Option Json) : Option Json :=
  match v with
  | some Json.null => none
  | v => v

/-- The optional chain `parsed?.k1?.k2 ?? _` up to the `??`:
`none` exactly when the chain comes out null or undefined. -/
def chain2 (j : Json) (k1 k2 : String) : Option Json :=
  nullish ((jget j k1).bind (fun e => jget e k2))

/-- Runtime value of one merged config field: the file's JSON value when
the chain produced one, otherwise the default (the declared TypeScript
types promise booleans, but `loadConfig` never checks that). -/
structure RawEventsConfig where
  complete : Json
  error : Json
  permission : Json
  question : Json

/-- Runtime value of the merged `sound` section. -/
structure RawSoundConfig where
  enabled : Json

/-- Runtime value of the merged configuration record built by
`loadConfig`. -/
structure RawNotificationConfig where
  events : RawEventsConfig
  sound : RawSoundConfig

/-- `DEFAULT_CONFIG` from config.ts: all four event categories enabled,
sound enabled. -/
def DEFAULT_CONFIG : NotificationConfig :=
  ⟨⟨true, true, true, true⟩, ⟨true⟩⟩

/-- A well-typed configuration seen as a runtime JSON-valued record. -/
def rawOfConfig (c : NotificationConfig) : RawNotificationConfig :=
  ⟨⟨Json.bool c.events.complete, Json.bool c.events.error,
    Json.bool c.events.permission, Json.bool c.events.question⟩,
   ⟨Json.bool c.sound.enabled⟩⟩

/-- What the configuration file yielded: absent, present but not valid
JSON (`JSON.parse` threw), or parsed to a JSON value. -/
inductive ConfigSource where
  | absent
  | invalid
  | parsed (j : Json)

/-- `loadConfig` from config.ts: full defaults when the file is absent or
unparsable, otherwise each field is `parsed?.section?.field ?? default`,
merged independently. -/
def loadConfig (src : ConfigSource) : RawNotificationConfig :=
  match src with
  | ConfigSource.absent => rawOfConfig DEFAULT_CONFIG
  | ConfigSource.invalid => rawOfConfig DEFAULT_CONFIG
  | ConfigSource.parsed j =>
    ⟨⟨(chain2 j "events" "complete").getD (Json.bool DEFAULT_CONFIG.events.complete),
      (chain2 j "events" "error").getD (Json.bool DEFAULT_CONFIG.events.error),
      (chain2 j "events" "permission").getD (Json.bool DEFAULT_CONFIG.events.permission),
      (chain2 j "events" "question").getD (Json.bool DEFAULT_CONFIG.events.question)⟩,
     ⟨(chain2 j "sound" "enabled").getD (Json.bool DEFAULT_CONFIG.sound.enabled)⟩⟩

/-- C9: an absent or unparsable configuration file yields the full default
configuration (all four event categories enabled, sound enabled) instead
of a parse error; and for a file that parses, every field the chain finds
missing is filled from those same defaults. -/
theorem loadConfig_defaults :
    (loadConfig ConfigSource.absent = rawOfConfig DEFAULT_CONFIG) ∧
    (loadConfig ConfigSource.invalid = rawOfConfig DEFAULT_CONFIG) ∧
    (DEFAULT_CONFIG = ⟨⟨true, true, true, true⟩, ⟨true⟩⟩) ∧
    (∀ j : Json,
      (chain2 j "events" "complete" = none →
        (loadConfig (ConfigSource.parsed j)).events.complete = Json.bool true) ∧
      (chain2 j "events" "error" = none →
        (loadConfig (ConfigSource.parsed j)).events.error = Json.bool true) ∧
      (chain2 j "events" "permission" = none →
        (loadConfig (ConfigSource.parsed j)).events.permission = Json.bool true) ∧
      (chain2 j "events" "question" = none →
        (loadConfig (ConfigSource.parsed j)).events.question = Json.bool true) ∧
      (chain2 j "sound" "enabled" = none →
        (loadConfig (ConfigSource.parsed j)).sound.enabled = Json.bool true)) := by
  refine ⟨rfl, rfl, rfl, fun j => ⟨?_, ?_, ?_, ?_, ?_⟩⟩ <;> intro h <;>
    simp [loadConfig, h, DEFAULT_CONFIG]

/-- Witness for C9: the empty JSON object has all chains missing, and each
merged field is the default. -/
theorem loadConfig_defaults_witness :
    (chain2 (Json.obj []) "events" "complete" = none) ∧
    ((loadConfig (ConfigSource.parsed (Json.obj []))).events.complete = Json.bool true) :=
  ⟨rfl, (loadConfig_defaults.2.2.2 (Json.obj [])).1 rfl⟩

/-- Modelled from the spec: "internal whitespace runs collapsed to one
space" and trimmed ends describe the cleaned string as the maximal
whitespace-free runs of the input, rejoined by single spaces.  `wsSplit`
extracts those runs, in order. -/
def wsSplit : List Char → List (List Char)
  | [] => []
  | c :: cs =>
    if c.isWhitespace then wsSplit cs
    else
      match cs with
      | [] => [[c]]
      | d :: _ =>
        if d.isWhitespace then [c] :: wsSplit cs
        else
          match wsSplit cs with
          | [] => [[c]]
          | w :: ws => (c :: w) :: ws

/-- Modelled from the spec: rejoin runs with a single space between
consecutive runs. -/
def joinWords : List (List Char) → List Char
  | [] => []
  | w :: ws =>
    match ws with
    | [] => w
    | _ :: _ => w ++ ' ' :: joinWords ws

/-- The first character, if any, is not whitespace. -/
def noWsHead : List Char → Prop
  | [] => True
  | c :: _ => c.isWhitespace = false

theorem length_dropWhile_le_ws (p : Char → Bool) (l : List Char) :
    (l.dropWhile p).length ≤ l.length := by
  induction l with
  | nil => simp
  | cons c cs ih =>
    by_cases h : p c
    · simp only [List.dropWhile_cons, h, if_pos]
      exact Nat.le_trans ih (Nat.le_succ _)
    · simp [List.dropWhile_cons, h]

theorem noWsHead_dropWhile (l : List Char) :
    noWsHead (l.dropWhile Char.isWhitespace) := by
  induction l with
  | nil => trivial
  | cons c cs ih =>
    by_cases h : c.isWhitespace
    · simpa [List.dropWhile_cons, h] using ih
    · simp only [List.dropWhile_cons, h, if_neg]
      simpa [noWsHead] using eq_false_of_ne_true h

theorem dropWhile_eq_self_of_noWsHead (l : List Char) (h : noWsHead l) :
    l.dropWhile Char.isWhitespace = l := by
  cases l with
  | nil => rfl
  | cons c cs =>
    simp only [noWsHead] at h
    simp [List.dropWhile_cons, h]

theorem collapseWsAux_true_eq (l : List Char) :
    collapseWsAux true l = collapseWsAux false (l.dropWhile Char.isWhitespace) := by
  induction l with
  | nil => rfl
  | cons c cs ih =>
    by_cases h : c.isWhitespace
    · simpa [collapseWsAux, h, List.dropWhile_cons] using ih
    · simp [collapseWsAux, h, List.dropWhile_cons]

theorem wsSplit_dropWhile (l : List Char) :
    wsSplit (l.dropWhile Char.isWhitespace) = wsSplit l := by
  induction l with
  | nil => rfl
  | cons c cs ih =>
    by_cases h : c.isWhitespace
    · simpa [List.dropWhile_cons, h, wsSplit] using ih
    · simp [List.dropWhile_cons, h]

theorem dropTrailWs_cons_notWs (c : Char) (l : List Char) (h : c.isWhitespace = false) :
    dropTrailWs (c :: l) = c :: dropTrailWs l := by
  unfold dropTrailWs
  rw [List.reverse_cons, List.dropWhile_append]
  by_cases he : (l.reverse.dropWhile Char.isWhitespace).isEmpty
  · rw [if_pos he]
    simp only [List.isEmpty_iff] at he
    simp [List.dropWhile_cons, h, he]
  · rw [if_neg he]
    simp

theorem dropTrailWs_cons_of_ne_nil (a : Char) (l : List Char) (h : dropTrailWs l ≠ []) :
    dropTrailWs (a :: l) = a :: dropTrailWs l := by
  unfold dropTrailWs at h ⊢
  rw [List.reverse_cons, List.dropWhile_append]
  have he : ¬ (l.reverse.dropWhile Char.isWhitespace).isEmpty := by
    simp only [List.isEmpty_iff]
    intro hnil
    exact h (by simp [hnil])
  rw [if_neg he]
  simp

theorem wsSplit_cons_ws (c : Char) (cs : List Char) (h : c.isWhitespace = true) :
    wsSplit (c :: cs) = wsSplit cs := by
  rw [wsSplit.eq_def]
  simp [h]

theorem wsSplit_singleton_notWs (c : Char) (h : c.isWhitespace = false) :
    wsSplit [c] = [[c]] := by
  rw [wsSplit.eq_def]
  simp [h]

theorem wsSplit_cons_cons_wsSnd (c d : Char) (t : List Char)
    (hc : c.isWhitespace = false) (hd : d.isWhitespace = true) :
    wsSplit (c :: d :: t) = [c] :: wsSplit (d :: t) := by
  rw [wsSplit.eq_def]
  simp [hc, hd]

theorem wsSplit_cons_cons_notWs (c d : Char) (t : List Char)
    (hc : c.isWhitespace = false) (hd : d.isWhitespace = false) :
    wsSplit (c :: d :: t) =
      (match wsSplit (d :: t) with
       | [] => [[c]]
       | w :: ws => (c :: w) :: ws) := by
  conv_lhs => rw [wsSplit.eq_def]
  simp [hc, hd]

theorem wsSplit_cons_notWs (e : Char) (t : List Char) (he : e.isWhitespace = false) :
    ∃ w ws, wsSplit (e :: t) = w :: ws := by
  cases t with
  | nil => exact ⟨[e], [], wsSplit_singleton_notWs e he⟩
  | cons d t2 =>
    by_cases hd : d.isWhitespace
    · exact ⟨[e], wsSplit (d :: t2), wsSplit_cons_cons_wsSnd e d t2 he hd⟩
    · rw [wsSplit_cons_cons_notWs e d t2 he (eq_false_of_ne_true hd)]
      cases h2 : wsSplit (d :: t2) with
      | nil => exact ⟨[e], [], by simp⟩
      | cons w ws => exact ⟨e :: w, ws, by simp⟩

theorem joinWords_cons_cons (c : Char) (w : List Char) (ws : List (List Char)) :
    joinWords ((c :: w) :: ws) = c :: joinWords (w :: ws) := by
  cases ws with
  | nil => rfl
  | cons w2 ws2 => simp [joinWords]

theorem noWsHead_collapse (m : List Char) (h : noWsHead m) :
    noWsHead (collapseWsAux false m) := by
  cases m with
  | nil => trivial
  | cons e t =>
    have he : e.isWhitespace = false := h
    have h1 : collapseWsAux false (e :: t) = e :: collapseWsAux false t := by
      simp [collapseWsAux, he]
    rw [h1]
    exact he

theorem clean_aux_eq :
    ∀ (n : Nat) (l : List Char), l.length ≤ n → noWsHead l →
      dropTrailWs (collapseWsAux false l) = joinWords (wsSplit l) := by
  intro n
  induction n with
  | zero =>
    intro l hl _
    have hnil : l = [] := List.length_eq_zero.mp (Nat.le_zero.mp hl)
    subst hnil
    rfl
  | succ n ih =>
    intro l hl hnws
    cases l with
    | nil => rfl
    | cons c cs =>
      have hc : c.isWhitespace = false := hnws
      cases cs with
      | nil =>
        rw [wsSplit_singleton_notWs c hc]
        have h1 : collapseWsAux false [c] = [c] := by simp [collapseWsAux, hc]
        rw [h1, dropTrailWs_cons_notWs c [] hc]
        rfl
      | cons d cs2 =>
        by_cases hd : d.isWhitespace
        · have haux : collapseWsAux false (c :: d :: cs2) =
              c :: ' ' :: collapseWsAux false (cs2.dropWhile Char.isWhitespace) := by
            simp [collapseWsAux, hc, hd, collapseWsAux_true_eq]
          rw [haux, wsSplit_cons_cons_wsSnd c d cs2 hc hd, wsSplit_cons_ws d cs2 hd,
            ← wsSplit_dropWhile cs2]
          have hrlen : (cs2.dropWhile Char.isWhitespace).length ≤ n := by
            have h1 := length_dropWhile_le_ws Char.isWhitespace cs2
            simp only [List.length_cons] at hl
            omega
          have hrnws : noWsHead (cs2.dropWhile Char.isWhitespace) := noWsHead_dropWhile cs2
          cases hre : cs2.dropWhile Char.isWhitespace with
          | nil =>
            have h0 : collapseWsAux false ([] : List Char) = [] := rfl
            have h2 : dropTrailWs [' '] = [] := by decide
            rw [h0, dropTrailWs_cons_notWs c [' '] hc, h2]
            rfl
          | cons e t =>
            rw [hre] at hrlen hrnws
            have he : e.isWhitespace = false := hrnws
            have hY : collapseWsAux false (e :: t) = e :: collapseWsAux false t := by
              simp [collapseWsAux, he]
            have hYne : dropTrailWs (collapseWsAux false (e :: t)) ≠ [] := by
              rw [hY, dropTrailWs_cons_notWs e _ he]
              simp
            rw [dropTrailWs_cons_notWs c _ hc,
              dropTrailWs_cons_of_ne_nil ' ' _ hYne,
              ih (e :: t) hrlen hrnws]
            obtain ⟨w, ws, hws⟩ := wsSplit_cons_notWs e t he
            rw [hws]
            rfl
        · have hdf : d.isWhitespace = false := eq_false_of_ne_true hd
          have haux : collapseWsAux false (c :: d :: cs2) =
              c :: collapseWsAux false (d :: cs2) := by
            simp [collapseWsAux, hc]
          have hlen2 : (d :: cs2).length ≤ n := by
            simp only [List.length_cons] at hl ⊢
            omega
          rw [haux, dropTrailWs_cons_notWs c _ hc,
            ih (d :: cs2) hlen2 hdf,
            wsSplit_cons_cons_notWs c d cs2 hc hdf]
          obtain ⟨w, ws, hws⟩ := wsSplit_cons_notWs d cs2 hdf
          rw [hws]
          exact (joinWords_cons_cons c w ws).symm

theorem cleanWs_eq (l : List Char) :
    trimWs (collapseWs l) = joinWords (wsSplit l) := by
  unfold trimWs collapseWs
  have hF2 : (collapseWsAux false l).dropWhile Char.isWhitespace =
      collapseWsAux false (l.dropWhile Char.isWhitespace) := by
    cases l with
    | nil => rfl
    | cons c cs =>
      by_cases h : c.isWhitespace
      · have h1 : collapseWsAux false (c :: cs) = ' ' :: collapseWsAux true cs := by
          simp [collapseWsAux, h]
        rw [h1, List.dropWhile_cons, if_pos (show (' '.isWhitespace = true) by decide)]
        rw [collapseWsAux_true_eq, dropWhile_eq_self_of_noWsHead _
          (noWsHead_collapse _ (noWsHead_dropWhile cs))]
        rw [List.dropWhile_cons, if_pos h]
      · have hf : c.isWhitespace = false := eq_false_of_ne_true h
        have h1 : collapseWsAux false (c :: cs) = c :: collapseWsAux false cs := by
          simp [collapseWsAux, hf]
        rw [h1, List.dropWhile_cons, if_neg (by simp [hf]),
          List.dropWhile_cons, if_neg (by simp [hf]), h1]
  rw [hF2,
    clean_aux_eq (l.dropWhile Char.isWhitespace).length _ le_rfl (noWsHead_dropWhile l),
    wsSplit_dropWhile]

/-- Modelled from the spec: truncation as the claim states it over natural
caps — collapse internal whitespace runs to one space and trim the ends;
if the cleaned string is longer than the cap, keep its first cap − 1
characters and append a single ellipsis marker. -/
def specTruncate (str : String) (maxLength : Nat) : String :=
  let cleaned := joinWords (wsSplit str.data)
  if cleaned.length ≤ maxLength then String.mk cleaned
  else String.mk (cleaned.take (maxLength - 1) ++ ['…'])

/-- Counterexample to C8 as stated, at cap 0: the code computes
`cleaned.slice(0, -1)` (all but the last character, JavaScript negative
indexing), so `truncate "ab" 0 = "a…"`, while "the first cap − 1
characters followed by an ellipsis" gives `"…"`. -/
theorem truncate_claim_cex : ¬ (truncate "ab" 0 = specTruncate "ab" 0) := by
  decide

/-- C8 amended: for every input string and every cap ≥ 1, `truncate`
first collapses internal whitespace runs to a single space and trims the
ends; if the cleaned string is longer than the cap the result is its
first cap − 1 characters followed by a single ellipsis marker, otherwise
the cleaned string unchanged. -/
theorem truncate_spec (str : String) (maxLength : Nat) (h : 1 ≤ maxLength) :
    truncate str maxLength = specTruncate str maxLength := by
  simp only [truncate, specTruncate]
  rw [cleanWs_eq]
  by_cases hle : (joinWords (wsSplit str.data)).length ≤ maxLength
  · rw [if_pos hle, if_pos hle]
  · rw [if_neg hle, if_neg hle]
    congr 2
    unfold jsSliceTo
    rw [if_neg (by omega : ¬ ((maxLength : Int) - 1 < 0))]
    congr 1
    omega

/-- Witness for the amended C8 at cap 3 on a string with internal
whitespace runs. -/
theorem truncate_spec_witness :
    (1 ≤ 3) ∧ (truncate "  a  b c " 3 = specTruncate "  a  b c " 3) :=
  ⟨by decide, truncate_spec "  a  b c " 3 (by decide)⟩
